import Mathlib

/-
Verification of the gears repository's buffer and shader-pipeline layers.

The definitions below are shallow embeddings of:
  * src/gears/src/renderer/buffer/uniform.rs  (UniformBuffer)
  * src/gears-pipeline/src/lib.rs             (PipelineInput parsing,
    glsl_attrib_macros preprocessing, compile_shader_module)

Machine-level facts (raw pointers, GPU handles) are modelled as explicit
state: the buffer's mapped memory is a byte list, device calls are recorded
in an operation trace, and panics are explicit result constructors.
-/

namespace Gears

/- ### UniformBuffer (src/gears/src/renderer/buffer/uniform.rs)

`UniformBuffer { buffer, memory, len, count }`: `len` is the byte capacity
fixed by `new`, `count` the element count of the last write.  The mapped
GPU memory is modelled as the byte list `mem`.  Device calls made by
`write` (`map_memory`, `flush_mapped_memory_ranges`, `unmap_memory`) are
recorded in order in a trace so that claims about the unmap discipline are
statable. -/

inductive DeviceOp where
  | mapMemory
  | flush
  | unmapMemory
deriving DecidableEq, Repr

structure UniformBuffer where
  len : Nat
  count : Nat
  mem : List Nat
deriving DecidableEq, Repr

/-- `UniformBuffer::new(device, available_memory_types, size)`: allocates
`size` bytes and starts with `count = 0` (uniform.rs lines 21-49). -/
def UniformBuffer.new (size : Nat) : UniformBuffer :=
  { len := size, count := 0, mem := List.replicate size 0 }

/-- Outcome of `UniformBuffer::write`: either a normal return or a panic at
the `assert!`.  Both carry the buffer state as left behind and the ordered
trace of device calls made before exiting. -/
inductive WriteResult where
  | ok (buf : UniformBuffer) (trace : List DeviceOp)
  | panicked (buf : UniformBuffer) (trace : List DeviceOp) (msg : String)
deriving DecidableEq, Repr

def WriteResult.state : WriteResult → UniformBuffer
  | .ok b _ => b
  | .panicked b _ _ => b

def WriteResult.trace : WriteResult → List DeviceOp
  | .ok _ t => t
  | .panicked _ t _ => t

def WriteResult.isOk : WriteResult → Bool
  | .ok _ _ => true
  | .panicked _ _ _ => false

/-- The bytes moved by `ptr::copy_nonoverlapping(data.as_ptr(), mapping,
size_of::<T>() * data.len())`: the flattened element bytes, truncated to
exactly `elemSize * data.length` bytes (uniform.rs lines 63-67).  Each
element of `data` is the byte representation of one `T` value. -/
def copiedBytes (elemSize : Nat) (data : List (List Nat)) : List Nat :=
  data.flatten.take (elemSize * data.length)

/-- `UniformBuffer::write(device, offset, data)` (uniform.rs lines 51-75),
step for step:
  1. `map_memory` over `Segment::ALL`;
  2. `self.count = data.len()` (before any check);
  3. `assert!(offset + size_of::<T>() * self.count <= self.len)` — on
     violation the function panics right here, so neither the copy, the
     flush nor the unmap happens;
  4. copy `size_of::<T>() * data.len()` bytes to `mapping`, the base of the
     mapped range — `offset` is not used as a destination;
  5. flush, then unmap. -/
def UniformBuffer.write (buf : UniformBuffer) (elemSize offset : Nat)
    (data : List (List Nat)) : WriteResult :=
  if offset + elemSize * data.length ≤ buf.len then
    WriteResult.ok
      { buf with
        count := data.length
        mem := copiedBytes elemSize data ++
          buf.mem.drop (copiedBytes elemSize data).length }
      [DeviceOp.mapMemory, DeviceOp.flush, DeviceOp.unmapMemory]
  else
    WriteResult.panicked { buf with count := data.length }
      [DeviceOp.mapMemory] "Tried to overflow the buffer"

/-- `UniformBuffer::count` (uniform.rs lines 77-79). -/
def UniformBuffer.countQuery (buf : UniformBuffer) : Nat := buf.count

end Gears

/- ### Claims C1-C4, C10: UniformBuffer -/

namespace Gears

/-- C1: a write whose `offset + size_of::<T>() * data.len()` exceeds the
capacity fixed at construction panics at the assertion with the message
"Tried to overflow the buffer", and no bytes of `data` are copied: the
memory content in the panicked state is exactly the pre-call content. -/
theorem write_overflow_panics_no_partial (buf : UniformBuffer)
    (elemSize offset : Nat) (data : List (List Nat))
    (h : buf.len < offset + elemSize * data.length) :
    buf.write elemSize offset data =
      WriteResult.panicked { buf with count := data.length }
        [DeviceOp.mapMemory] "Tried to overflow the buffer" ∧
    (buf.write elemSize offset data).state.mem = buf.mem := by
  have hne : ¬ offset + elemSize * data.length ≤ buf.len := by omega
  unfold UniformBuffer.write
  rw [if_neg hne]
  exact ⟨rfl, rfl⟩

theorem write_overflow_panics_no_partial_witness :
    (UniformBuffer.new 4).len < 0 + 4 * ([[1,2,3,4],[5,6,7,8]] : List (List Nat)).length ∧
    ((UniformBuffer.new 4).write 4 0 [[1,2,3,4],[5,6,7,8]] =
      WriteResult.panicked { UniformBuffer.new 4 with count := 2 }
        [DeviceOp.mapMemory] "Tried to overflow the buffer" ∧
    ((UniformBuffer.new 4).write 4 0 [[1,2,3,4],[5,6,7,8]]).state.mem =
      (UniformBuffer.new 4).mem) :=
  ⟨by decide,
    write_overflow_panics_no_partial (UniformBuffer.new 4) 4 0
      [[1,2,3,4],[5,6,7,8]] (by decide)⟩

/-- C2 counterexample: for the concrete failing write below (capacity 4
bytes, 8 bytes of data), `unmap_memory` is never invoked before the call
exits — the device trace of the failing path is `[mapMemory]` only.  This
refutes the claim that every call to `write` releases the mapping on the
failure path of the capacity check. -/
theorem write_failure_skips_unmap_cex :
    DeviceOp.unmapMemory ∉
      ((UniformBuffer.new 4).write 4 0 [[1,2,3,4],[5,6,7,8]]).trace ∧
    ((UniformBuffer.new 4).write 4 0 [[1,2,3,4],[5,6,7,8]]).trace =
      [DeviceOp.mapMemory] := by decide

/-- C2 amended: on the success path of the capacity check, `write` maps,
flushes and unmaps in that order, so the mapping is released before the
call exits; on the failure path the assertion panics after `map_memory`
and before `unmap_memory`, so the mapping is not released. -/
theorem write_unmap_trace (buf : UniformBuffer) (elemSize offset : Nat)
    (data : List (List Nat)) :
    (buf.write elemSize offset data).trace =
      if offset + elemSize * data.length ≤ buf.len then
        [DeviceOp.mapMemory, DeviceOp.flush, DeviceOp.unmapMemory]
      else [DeviceOp.mapMemory] := by
  unfold UniformBuffer.write
  split <;> rfl

/-- C3 counterexample: the invariant `element_count * element_size ≤
capacity` is not preserved by a failing write.  `write` executes
`self.count = data.len()` before the assertion, so the concrete failing
call below (capacity 4, two 4-byte elements) leaves the buffer with
`count = 2` and `2 * 4 > 4` in the state observed at the panic. -/
theorem write_failure_invariant_violated_cex :
    ¬ (((UniformBuffer.new 4).write 4 0 [[1,2,3,4],[5,6,7,8]]).state.count * 4 ≤
        ((UniformBuffer.new 4).write 4 0 [[1,2,3,4],[5,6,7,8]]).state.len) := by
  decide

/-- C3 amended: the invariant `count * elemSize ≤ len` holds after `new`
(which sets `count = 0` and `len` to the requested byte size) and after
every successful `write`; a write that fails the capacity check has
already set `count` to `data.len()` when the assertion fires, so the
invariant need not hold in the panicked state. -/
theorem invariant_new_and_successful_write (size elemSize offset : Nat)
    (buf : UniformBuffer) (data : List (List Nat))
    (h : (buf.write elemSize offset data).isOk = true) :
    (UniformBuffer.new size).count * elemSize ≤ (UniformBuffer.new size).len ∧
    (buf.write elemSize offset data).state.count * elemSize ≤
      (buf.write elemSize offset data).state.len := by
  constructor
  · simp [UniformBuffer.new]
  · unfold UniformBuffer.write at h ⊢
    split at h
    · next hle =>
      rw [if_pos hle]
      simp only [WriteResult.state]
      have : elemSize * data.length ≤ buf.len := by omega
      calc data.length * elemSize = elemSize * data.length := Nat.mul_comm _ _
        _ ≤ buf.len := this
    · simp [WriteResult.isOk] at h

theorem invariant_new_and_successful_write_witness :
    ((UniformBuffer.new 8).write 4 0 [[1,2,3,4]]).isOk = true ∧
    ((UniformBuffer.new 4).count * 4 ≤ (UniformBuffer.new 4).len ∧
      ((UniformBuffer.new 8).write 4 0 [[1,2,3,4]]).state.count * 4 ≤
        ((UniformBuffer.new 8).write 4 0 [[1,2,3,4]]).state.len) :=
  ⟨by decide,
    invariant_new_and_successful_write 4 4 0 (UniformBuffer.new 8)
      [[1,2,3,4]] (by decide)⟩

/-- C4: after a successful `write`, `count` is exactly `data.len()`, and
writing the same data again through the same buffer returns the very same
state and trace — write is idempotent in effect (same `count()`, same
memory content). -/
theorem write_count_idempotent (buf st : UniformBuffer)
    (tr : List DeviceOp) (elemSize offset : Nat) (data : List (List Nat))
    (h : buf.write elemSize offset data = WriteResult.ok st tr) :
    st.countQuery = data.length ∧
    st.write elemSize offset data = WriteResult.ok st tr := by
  unfold UniformBuffer.write at h
  split at h
  · next hle =>
    obtain ⟨hst, htr⟩ := WriteResult.ok.injEq .. ▸ h
    subst hst htr
    refine ⟨rfl, ?_⟩
    unfold UniformBuffer.write
    rw [if_pos hle]
    congr 1
    simp only [List.drop_left]
  · exact absurd h (by simp)

theorem write_count_idempotent_witness :
    (UniformBuffer.new 8).write 4 0 [[1,2,3,4]] =
      WriteResult.ok ⟨8, 1, [1,2,3,4,0,0,0,0]⟩
        [DeviceOp.mapMemory, DeviceOp.flush, DeviceOp.unmapMemory] ∧
    ((⟨8, 1, [1,2,3,4,0,0,0,0]⟩ : UniformBuffer).countQuery =
        ([[1,2,3,4]] : List (List Nat)).length ∧
      (⟨8, 1, [1,2,3,4,0,0,0,0]⟩ : UniformBuffer).write 4 0 [[1,2,3,4]] =
        WriteResult.ok ⟨8, 1, [1,2,3,4,0,0,0,0]⟩
          [DeviceOp.mapMemory, DeviceOp.flush, DeviceOp.unmapMemory]) :=
  ⟨by decide,
    write_count_idempotent (UniformBuffer.new 8) ⟨8, 1, [1,2,3,4,0,0,0,0]⟩
      [DeviceOp.mapMemory, DeviceOp.flush, DeviceOp.unmapMemory] 4 0
      [[1,2,3,4]] (by decide)⟩

/-- C10: the copy destination of `write` is the base of the mapped memory,
independent of `offset`: a successful write leaves `mem` equal to the
copied bytes followed by the untouched tail, and any other offset that
also passes the capacity assertion produces the identical result state and
trace.  `offset` participates only in the assertion. -/
theorem write_copies_from_mapping_start (buf st : UniformBuffer)
    (tr : List DeviceOp) (elemSize offset offset' : Nat)
    (data : List (List Nat))
    (h : buf.write elemSize offset data = WriteResult.ok st tr)
    (h' : offset' + elemSize * data.length ≤ buf.len) :
    st.mem = copiedBytes elemSize data ++
      buf.mem.drop (copiedBytes elemSize data).length ∧
    buf.write elemSize offset' data = WriteResult.ok st tr := by
  unfold UniformBuffer.write at h ⊢
  split at h
  · next hle =>
    obtain ⟨hst, htr⟩ := WriteResult.ok.injEq .. ▸ h
    subst hst htr
    exact ⟨rfl, by rw [if_pos h']⟩
  · exact absurd h (by simp)

theorem write_copies_from_mapping_start_witness :
    ((UniformBuffer.new 8).write 4 0 [[1,2,3,4]] =
        WriteResult.ok ⟨8, 1, [1,2,3,4,0,0,0,0]⟩
          [DeviceOp.mapMemory, DeviceOp.flush, DeviceOp.unmapMemory] ∧
      2 + 4 * ([[1,2,3,4]] : List (List Nat)).length ≤ (UniformBuffer.new 8).len) ∧
    ((⟨8, 1, [1,2,3,4,0,0,0,0]⟩ : UniformBuffer).mem =
        copiedBytes 4 [[1,2,3,4]] ++
          (UniformBuffer.new 8).mem.drop (copiedBytes 4 [[1,2,3,4]]).length ∧
      (UniformBuffer.new 8).write 4 2 [[1,2,3,4]] =
        WriteResult.ok ⟨8, 1, [1,2,3,4,0,0,0,0]⟩
          [DeviceOp.mapMemory, DeviceOp.flush, DeviceOp.unmapMemory]) :=
  ⟨⟨by decide, by decide⟩,
    write_copies_from_mapping_start (UniformBuffer.new 8)
      ⟨8, 1, [1,2,3,4,0,0,0,0]⟩
      [DeviceOp.mapMemory, DeviceOp.flush, DeviceOp.unmapMemory] 4 0 2
      [[1,2,3,4]] (by decide) (by decide)⟩

end Gears

/- ### Pipeline input parsing (src/gears-pipeline/src/lib.rs) -/

namespace Gears

/-- `ModuleType` (from the `ubo` module, used by lib.rs): the stage kind. -/
inductive ModuleType where
  | Vertex
  | Fragment
deriving DecidableEq, Repr

/-- The options collected by `ModuleInput::parse` that the later stages
consume (lib.rs lines 18-26): the shader source, the optional entry-point
override and the debug flag. -/
structure ModuleInput where
  source : String
  entry : Option String
  debug : Bool
deriving DecidableEq, Repr

/-- The stage-keyword match of `PipelineInput::parse` (lib.rs lines
109-118): aliases `vs`/`vertex`/`vert` and `fs`/`fragment`/`frag`; any
other keyword is the "Unknown shader type" error (`none` here). -/
def parseModuleType (s : String) : Option ModuleType :=
  if s = "vs" ∨ s = "vertex" ∨ s = "vert" then some ModuleType.Vertex
  else if s = "fs" ∨ s = "fragment" ∨ s = "frag" then some ModuleType.Fragment
  else none

/-- The `HashMap<ModuleType, ModuleInput>` under construction, as an
association list in insertion order. -/
abbrev PipelineModules := List (ModuleType × ModuleInput)

/-- The `while !input.is_empty()` loop of `PipelineInput::parse` (lib.rs
lines 101-125): for each declaration, resolve the stage keyword; error on
an unknown keyword; error with "Duplicate shader module" when
`modules.contains_key(&module_type)`; otherwise insert and continue. -/
def parsePipelineLoop :
    List (String × ModuleInput) → PipelineModules →
      Except String PipelineModules
  | [], modules => Except.ok modules
  | (name, m) :: rest, modules =>
    match parseModuleType name with
    | none => Except.error ("Unknown shader type: " ++ name)
    | some t =>
      if t ∈ modules.map Prod.fst then
        Except.error "Duplicate shader module"
      else parsePipelineLoop rest (modules ++ [(t, m)])

/-- `PipelineInput::parse` (lib.rs lines 98-128) over an already-tokenized
list of `stage-keyword: { module }` declarations. -/
def parsePipelineInput (decls : List (String × ModuleInput)) :
    Except String PipelineModules :=
  parsePipelineLoop decls []

/-- The stage kinds declared by the input, in order, one per declaration
whose keyword is a recognized stage alias. -/
def declaredTypes (decls : List (String × ModuleInput)) : List ModuleType :=
  decls.filterMap (fun d => parseModuleType d.1)

/-- Invariant of the parse loop: a successful parse implies the accumulated
keys together with all declared stage kinds are pairwise distinct. -/
theorem parsePipelineLoop_ok_nodup (decls : List (String × ModuleInput)) :
    ∀ (ms out : PipelineModules), (ms.map Prod.fst).Nodup →
      parsePipelineLoop decls ms = Except.ok out →
      ((ms.map Prod.fst) ++ declaredTypes decls).Nodup := by
  induction decls with
  | nil =>
    intro ms out hnd _
    simpa [declaredTypes] using hnd
  | cons d rest ih =>
    intro ms out hnd h
    obtain ⟨name, m⟩ := d
    unfold parsePipelineLoop at h
    cases hpt : parseModuleType name with
    | none => rw [hpt] at h; exact absurd h (by simp)
    | some t =>
      rw [hpt] at h
      replace h :
          (if t ∈ ms.map Prod.fst then
              (Except.error "Duplicate shader module" :
                Except String PipelineModules)
            else parsePipelineLoop rest (ms ++ [(t, m)])) = Except.ok out := h
      by_cases hc : t ∈ ms.map Prod.fst
      · rw [if_pos hc] at h; exact absurd h (by simp)
      · rw [if_neg hc] at h
        have hnd' : ((ms ++ [(t, m)]).map Prod.fst).Nodup := by
          simp only [List.map_append, List.map_cons, List.map_nil]
          rw [List.nodup_append]
          refine ⟨hnd, List.nodup_singleton t, ?_⟩
          intro x hx hx'
          simp only [List.mem_singleton] at hx'
          subst hx'
          exact hc hx
        have := ih (ms ++ [(t, m)]) out hnd' h
        simp only [List.map_append, List.map_cons, List.map_nil,
          List.append_assoc, List.singleton_append] at this
        simpa [declaredTypes, List.filterMap_cons, hpt] using this

/-- C5: a pipeline definition that declares two modules of the same stage
kind (under any of the accepted aliases) never parses successfully —
`PipelineInput::parse` returns an error, so no `Pipeline` is ever
constructed from it (`Pipeline::new` only runs on a parsed input). -/
theorem duplicate_stage_module_errors (decls : List (String × ModuleInput))
    (t : ModuleType) (h : 2 ≤ (declaredTypes decls).count t) :
    ∃ msg, parsePipelineInput decls = Except.error msg := by
  cases hp : parsePipelineInput decls with
  | error e => exact ⟨e, rfl⟩
  | ok out =>
    have hnd := parsePipelineLoop_ok_nodup decls [] out (by simp) hp
    simp only [List.map_nil, List.nil_append] at hnd
    have := List.nodup_iff_count_le_one.mp hnd t
    omega

theorem duplicate_stage_module_errors_witness :
    2 ≤ (declaredTypes
          [("vs", ⟨"", none, false⟩), ("vert", ⟨"", none, false⟩)]).count
        ModuleType.Vertex ∧
    ∃ msg, parsePipelineInput
        [("vs", ⟨"", none, false⟩), ("vert", ⟨"", none, false⟩)] =
      Except.error msg :=
  ⟨by decide,
    duplicate_stage_module_errors
      [("vs", ⟨"", none, false⟩), ("vert", ⟨"", none, false⟩)]
      ModuleType.Vertex (by decide)⟩

end Gears

/- ### Stage compiler invocation (src/gears-pipeline/src/lib.rs) -/

namespace Gears

/-- The entry-point argument `Pipeline::new` passes to
`compile_shader_module` (lib.rs line 344):
`input.entry.as_ref().map_or("main", |e| e.as_str())`.  The stage kind is
received by the same closure but does not enter this expression. -/
def stageEntryArg (t : ModuleType) (m : ModuleInput) : String :=
  m.entry.getD "main"

/-- Modelled from the spec: the macro's own doc comment (lib.rs lines
582-584, "gears-pipeline default entry points") documents the default
entry point as `vert` for the vertex shader and `frag` for the fragment
shader. -/
def documentedDefaultEntry : ModuleType → String
  | ModuleType.Vertex => "vert"
  | ModuleType.Fragment => "frag"

/-- C8 evaluation: with no `entry` option given, the entry-point name the
code passes to the stage compiler is `"main"` for the vertex stage and
`"main"` for the fragment stage — the defaults do not differ by stage,
although the macro's own documentation says they are `vert` and `frag`. -/
theorem default_entry_not_stage_dependent :
    stageEntryArg ModuleType.Vertex ⟨"", none, false⟩ = "main" ∧
    stageEntryArg ModuleType.Fragment ⟨"", none, false⟩ = "main" ∧
    stageEntryArg ModuleType.Vertex ⟨"", none, false⟩ ≠
      documentedDefaultEntry ModuleType.Vertex ∧
    stageEntryArg ModuleType.Fragment ⟨"", none, false⟩ ≠
      documentedDefaultEntry ModuleType.Fragment ∧
    documentedDefaultEntry ModuleType.Vertex ≠
      documentedDefaultEntry ModuleType.Fragment := by decide

/-- A compiled SPIR-V artifact, by its bytes. -/
structure SpirvArtifact where
  bytes : List Nat
deriving DecidableEq, Repr

/-- Split a character list at every `'\n'` (like `String.splitOn "\n"`,
written structurally so the kernel evaluates it). -/
def splitNl : List Char → List (List Char)
  | [] => [[]]
  | '\n' :: rest => [] :: splitNl rest
  | c :: rest =>
    match splitNl rest with
    | [] => [[c]]
    | l :: ls => (c :: l) :: ls

/-- Strip one trailing `'\r'`, as `str::lines` does per line. -/
def stripCR (l : List Char) : List Char :=
  match l.getLast? with
  | some '\r' => l.dropLast
  | _ => l

/-- Rust's `str::lines`: split on `'\n'`, strip one trailing `'\r'` per
line, no trailing empty line. -/
def rustLines (s : String) : List String :=
  let parts := splitNl s.data
  let parts := if parts.getLast? = some [] then parts.dropLast else parts
  parts.map (fun l => String.mk (stripCR l))

/-- Decimal digits of a natural number (fuel-structural `Nat.repr`). -/
def natDigitsAux : Nat → Nat → List Char
  | 0, _ => []
  | fuel + 1, n =>
    if n < 10 then [Nat.digitChar n]
    else natDigitsAux fuel (n / 10) ++ [Nat.digitChar (n % 10)]

/-- Decimal rendering of a line number, as Rust's `Display` for `usize`. -/
def natDecimal (n : Nat) : String := String.mk (natDigitsAux (n + 1) n)

/-- `format!("{:-4}: ...", i + 1)`: the line number right-aligned in a
4-character field. -/
def padWidth4 (n : Nat) : String :=
  let s := natDecimal n
  if s.length < 4 then String.mk (List.replicate (4 - s.length) ' ') ++ s
  else s

/-- Rust `str::trim_end`: drop trailing whitespace. -/
def trimEndChars (cs : List Char) : List Char :=
  (cs.reverse.dropWhile Char.isWhitespace).reverse

/-- The `source_with_lines` value of `compile_shader_module` (lib.rs lines
520-524): every source line prefixed with its 1-based number, collected
and right-trimmed. -/
def sourceWithLines (source : String) : String :=
  String.mk (trimEndChars
    (String.join ((rustLines source).enum.map
      (fun p => padWidth4 (p.1 + 1) ++ ": " ++ p.2 ++ "\n"))).data)

/-- The final `or_else` wrapper of `compile_shader_module` (lib.rs lines
519-531): every error is re-emitted as `Error:\n{err}\nSource:\n{lines}`. -/
def formatCompileError (err : String) (source : String) : String :=
  "Error:\n" ++ err ++ "\nSource:\n" ++ sourceWithLines source

/-- `compile_shader_module` result plumbing (lib.rs lines 509-531).  The
external shaderc calls are inputs: `preprocessOutcome` is what
`compiler.preprocess` returns (its text on success, its diagnostic string
on failure) and `compileOutcome` what `compiler.compile_into_spirv`
returns.  With `debug` set, the code maps the preprocess result into
`Err` on both sides (`map_or_else(|err| Err(...), |res| Err(res.as_text()))`);
without it, it forwards the compile result.  Either way every error is
then wrapped by `formatCompileError`. -/
def compileShaderModule (debug : Bool) (source : String)
    (preprocessOutcome : Except String String)
    (compileOutcome : Except String SpirvArtifact) :
    Except String SpirvArtifact :=
  let result : Except String SpirvArtifact :=
    if debug then
      match preprocessOutcome with
      | Except.error err => Except.error err
      | Except.ok res => Except.error res
    else compileOutcome
  match result with
  | Except.ok a => Except.ok a
  | Except.error err => Except.error (formatCompileError err source)

/-- C7 counterexample: with `debug` set and a successful preprocess whose
expanded text is `"EXPANDED"`, the error payload is not the expanded
source text: it is the expanded text wrapped in the `Error:`/`Source:`
frame with the line-numbered original source appended. -/
theorem debug_payload_wrapped_cex :
    compileShaderModule true "void" (Except.ok "EXPANDED")
        (Except.ok ⟨[]⟩) =
      Except.error "Error:\nEXPANDED\nSource:\n   1: void" ∧
    "Error:\nEXPANDED\nSource:\n   1: void" ≠ "EXPANDED" := by
  have h : formatCompileError "EXPANDED" "void" =
      "Error:\nEXPANDED\nSource:\n   1: void" := by decide
  constructor
  · show Except.error (formatCompileError "EXPANDED" "void") = _
    rw [h]
  · decide

/-- C7 amended: when the debug flag is set, `compile_shader_module` never
returns a compiled binary (it always returns an error, whatever the
external compiler does), and when preprocessing succeeds the error payload
is the expanded source text wrapped in the standard error frame
(`Error:\n` + expanded text + `\nSource:\n` + line-numbered source). -/
theorem debug_never_compiles (source t : String)
    (pre : Except String String) (co : Except String SpirvArtifact)
    (h : pre = Except.ok t) :
    (∀ (pre' : Except String String) (co' : Except String SpirvArtifact)
        (a : SpirvArtifact),
      compileShaderModule true source pre' co' ≠ Except.ok a) ∧
    compileShaderModule true source pre co =
      Except.error (formatCompileError t source) := by
  subst h
  constructor
  · intro pre' co' a
    unfold compileShaderModule
    cases pre' <;> simp
  · rfl

theorem debug_never_compiles_witness :
    (Except.ok "EXPANDED" : Except String String) = Except.ok "EXPANDED" ∧
    ((∀ (pre' : Except String String) (co' : Except String SpirvArtifact)
        (a : SpirvArtifact),
      compileShaderModule true "void" pre' co' ≠ Except.ok a) ∧
    compileShaderModule true "void" (Except.ok "EXPANDED")
        (Except.ok ⟨[]⟩) =
      Except.error (formatCompileError "EXPANDED" "void")) :=
  ⟨rfl,
    debug_never_compiles "void" "EXPANDED" (Except.ok "EXPANDED")
      (Except.ok ⟨[]⟩) rfl⟩

end Gears

/- ### Annotated-block failure path (glsl_attrib_macros, lib.rs 282-312) -/

namespace Gears

/-- How a build-time failure reaches the enclosing pipeline build: either a
`syn::Error` created with `Error::new(span, msg)` — it carries the
originating source span — or a `panic!`, which carries only its formatted
message. -/
inductive MacroFailure where
  | spanned (span : Nat) (msg : String)
  | panicked (msg : String)
deriving DecidableEq, Repr

/-- Rust `{:?}` debug formatting of a plain string: quoted. -/
def debugQuote (s : String) : String := "\"" ++ s ++ "\""

/-- The per-capture body of the `attrib_matcher.replace_all` closure in
`glsl_attrib_macros` (lib.rs lines 283-311), given the matched text `cap`
and the result of `syn::parse_str::<BindgenStruct>(cap)` (the parser
itself lives in the `ubo` module; only its outcome matters here): on
success the block is replaced by `"\n"` plus the generated GLSL; on a
parse error the code executes
`panic!("attrib failed: {:?}, {}", e.to_string(), cap)`. -/
def attribCaptureOutcome (cap : String)
    (parseResult : Except String String) : Except MacroFailure String :=
  match parseResult with
  | Except.ok glsl => Except.ok ("\n" ++ glsl)
  | Except.error e =>
    Except.error (MacroFailure.panicked
      ("attrib failed: " ++ debugQuote e ++ ", " ++ cap))

/-- C6 counterexample: for a concrete annotated block whose annotation
syntax is malformed (the struct parse fails with "expected identifier"),
the failure is a `panic!` whose payload is only the formatted message —
it is not a `syn::Error` carrying the originating source span, unlike the
spanned errors the parser uses elsewhere. -/
theorem attrib_malformed_panics_cex :
    attribCaptureOutcome "BAD_ATTRIB_BLOCK"
        (Except.error "expected identifier") =
      Except.error (MacroFailure.panicked
        "attrib failed: \"expected identifier\", BAD_ATTRIB_BLOCK") ∧
    ∀ (sp : Nat) (m : String),
      (MacroFailure.panicked
        "attrib failed: \"expected identifier\", BAD_ATTRIB_BLOCK") ≠
        MacroFailure.spanned sp m :=
  ⟨rfl, fun _ _ h => MacroFailure.noConfusion h⟩

/-- C6 amended: a matched annotated block with malformed annotation syntax
makes the enclosing pipeline build fail non-recoverably, but via `panic!`
with a message holding the parse error text and the matched source text;
no originating source span is attached to the failure. -/
theorem attrib_malformed_is_unspanned_panic (cap e : String) :
    attribCaptureOutcome cap (Except.error e) =
      Except.error (MacroFailure.panicked
        ("attrib failed: " ++ debugQuote e ++ ", " ++ cap)) := rfl

end Gears

/- ### Comment stripping (glsl_attrib_macros, lib.rs lines 272-280)

`comment_matcher = Regex::new(r"(//.*)|(/\*(.|(\r?\n))*\*/)")` and
`comment_matcher.replace_all(source, " ")`.  The regex crate scans for the
leftmost match and its `*` quantifiers are greedy: `//.*` runs to the end
of the line (`.` matches any character but `'\n'`, including `'\r'`), and
`/\*(.|(\r?\n))*\*/` runs from a `/*` to the LAST `*/` in the remaining
text, since `(.|(\r?\n))` matches every character.  Each match is replaced
by one space.  The model below implements exactly that scan. -/

namespace Gears

/-- Advance past the characters matched by `.*` after `//`: everything up
to (and excluding) the next `'\n'`. -/
def dropLine : List Char → List Char
  | [] => []
  | c :: rest => if c = '\n' then c :: rest else dropLine rest

theorem dropLine_length_le (l : List Char) :
    (dropLine l).length ≤ l.length := by
  induction l with
  | nil => exact Nat.le_refl _
  | cons c rest ih =>
    unfold dropLine
    split
    · exact Nat.le_refl _
    · exact Nat.le_trans ih (Nat.le_succ _)

/-- Index of the last occurrence of `*/` in a character list: where the
greedy `(.|(\r?\n))*\*/` tail ends its match. -/
def lastClose : List Char → Option Nat
  | [] => none
  | [_] => none
  | a :: b :: rest =>
    if a = '*' ∧ b = '/' then
      match lastClose (b :: rest) with
      | some j => some (j + 1)
      | none => some 0
    else (lastClose (b :: rest)).map (· + 1)

theorem lastClose_cons_cons (a b : Char) (rest : List Char) :
    lastClose (a :: b :: rest) =
      if a = '*' ∧ b = '/' then
        match lastClose (b :: rest) with
        | some j => some (j + 1)
        | none => some 0
      else (lastClose (b :: rest)).map (· + 1) := rfl

/-- `comment_matcher.replace_all(source, " ")`: scan left to right; at
`//` replace the line comment with one space; at `/*` with a later `*/`,
replace greedily up to the last `*/` with one space; any other character
is kept. -/
def stripAux : List Char → List Char
  | [] => []
  | '/' :: '/' :: rest2 => ' ' :: stripAux (dropLine rest2)
  | '/' :: '*' :: rest2 =>
    match lastClose rest2 with
    | some j => ' ' :: stripAux (rest2.drop (j + 2))
    | none => '/' :: stripAux ('*' :: rest2)
  | c :: rest => c :: stripAux rest
termination_by cs => cs.length
decreasing_by
  all_goals simp only [List.length_cons, List.length_drop]
  all_goals try omega
  all_goals (refine Nat.lt_of_le_of_lt (dropLine_length_le rest2) ?_; omega)

/-- The comment-stripped copy of the source, as produced on lib.rs line
280. -/
def stripComments (s : String) : String := String.mk (stripAux s.data)

theorem stripAux_nil : stripAux [] = [] := by
  simp only [stripAux]

theorem stripAux_cons_ne (c : Char) (l : List Char) (h : ¬ c = '/') :
    stripAux (c :: l) = c :: stripAux l := by
  rw [stripAux.eq_def]
  split <;> simp_all

theorem stripAux_block_some (rest2 : List Char) (j : Nat)
    (h : lastClose rest2 = some j) :
    stripAux ('/' :: '*' :: rest2) = ' ' :: stripAux (rest2.drop (j + 2)) := by
  simp only [stripAux]
  rw [h]

/-- A list without `'*'` has no `*/` occurrence. -/
theorem lastClose_eq_none (l : List Char) (h : '*' ∉ l) :
    lastClose l = none := by
  induction l with
  | nil => rfl
  | cons a rest ih =>
    cases rest with
    | nil => rfl
    | cons b rest2 =>
      rw [lastClose_cons_cons]
      have ha : ¬ (a = '*' ∧ b = '/') := by
        intro hab
        exact h (by simp [hab.1])
      rw [if_neg ha, ih (fun hm => h (List.mem_cons_of_mem _ hm))]
      rfl

/-- When the tail `e` holds no `'*'`, the last `*/` of `xs ++ "*/" ++ e`
is the explicit one, at index `xs.length`. -/
theorem lastClose_append_close (xs e : List Char) (he : '*' ∉ e) :
    lastClose (xs ++ '*' :: '/' :: e) = some xs.length := by
  induction xs with
  | nil =>
    simp only [List.nil_append, List.length_nil]
    rw [lastClose_cons_cons, if_pos ⟨rfl, rfl⟩]
    have hnone : lastClose ('/' :: e) = none := by
      refine lastClose_eq_none _ (fun hm => ?_)
      rcases List.mem_cons.mp hm with h1 | h2
      · exact absurd h1 (by decide)
      · exact he h2
    rw [hnone]
  | cons x xs' ih =>
    have hne : xs' ++ '*' :: '/' :: e ≠ [] := by simp
    obtain ⟨b, rest, hbr⟩ : ∃ b rest, xs' ++ '*' :: '/' :: e = b :: rest := by
      cases hx : xs' ++ '*' :: '/' :: e with
      | nil => exact absurd hx hne
      | cons b rest => exact ⟨b, rest, rfl⟩
    simp only [List.cons_append, hbr, List.length_cons]
    rw [lastClose_cons_cons]
    by_cases hcond : x = '*' ∧ b = '/'
    · rw [if_pos hcond, ← hbr, ih]
    · rw [if_neg hcond, ← hbr, ih]
      rfl

/-- The scan passes unchanged over a prefix holding no `'/'`. -/
theorem stripAux_append_clean (a t : List Char) (h : ∀ x ∈ a, x ≠ '/') :
    stripAux (a ++ t) = a ++ stripAux t := by
  induction a with
  | nil => simp
  | cons c a' ih =>
    have hc : c ≠ '/' := h c (List.mem_cons_self c a')
    simp only [List.cons_append]
    rw [stripAux_cons_ne c _ hc,
      ih (fun x hx => h x (List.mem_cons_of_mem _ hx))]

theorem stripAux_clean (e : List Char) (h : ∀ x ∈ e, x ≠ '/') :
    stripAux e = e := by
  have := stripAux_append_clean e [] h
  simpa [stripAux_nil] using this

theorem drop_append_add (xs z : List Char) (n : Nat) :
    (xs ++ z).drop (xs.length + n) = z.drop n := by
  induction xs with
  | nil => simp
  | cons x xs' ih =>
    simp only [List.cons_append, List.length_cons]
    have hsucc : xs'.length + 1 + n = (xs'.length + n) + 1 := by omega
    rw [hsucc, List.drop_succ_cons, ih]

/-- C9 counterexample: on the concrete source `"a /*x*/ b /*y*/ c"`, which
holds two block comments separated by the non-comment text `" b "`, the
greedy block-comment branch matches from the first `/*` to the last `*/`,
so the whole region — including the `b` between the comments — is replaced
by one space: comment stripping yields `"a   c"`, and the text between the
comments is not preserved in the output. -/
theorem comment_strip_between_text_lost_cex :
    stripComments "a /*x*/ b /*y*/ c" = "a   c" ∧
    'b' ∉ (stripComments "a /*x*/ b /*y*/ c").data := by
  have hdata : ("a /*x*/ b /*y*/ c").data =
      ['a',' ','/','*','x','*','/',' ','b',' ','/','*','y','*','/',' ','c'] := by
    decide
  have h1 : stripAux
      ['a',' ','/','*','x','*','/',' ','b',' ','/','*','y','*','/',' ','c'] =
      ['a',' ',' ',' ','c'] := by
    rw [stripAux_cons_ne _ _ (by decide), stripAux_cons_ne _ _ (by decide),
      stripAux_block_some _ 9 (by decide)]
    have hd : List.drop (9 + 2)
        ['x','*','/',' ','b',' ','/','*','y','*','/',' ','c'] = [' ','c'] := by
      decide
    rw [hd, stripAux_cons_ne _ _ (by decide),
      stripAux_cons_ne _ _ (by decide), stripAux_nil]
  constructor
  · show String.mk (stripAux ("a /*x*/ b /*y*/ c").data) = "a   c"
    rw [hdata, h1]
  · show 'b' ∉ (String.mk (stripAux ("a /*x*/ b /*y*/ c").data)).data
    rw [hdata, h1]
    decide

/-- C9 amended: comment stripping replaces each match of the comment regex
by one space, but the block-comment branch is greedy: in a source of the
form `a ++ "/*" ++ b ++ "*/" ++ c ++ "/*" ++ d ++ "*/" ++ e` (with no
`'/'` before the first comment and no `'/'` or `'*'` after the last one),
the match runs from the first `/*` to the last `*/`, so the two comments
and all text between them are replaced by a single space: the result is
`a ++ " " ++ e`.  Text between two block comments is therefore removed,
not preserved. -/
theorem comment_strip_greedy_block (a b c d e : List Char)
    (ha : ∀ x ∈ a, x ≠ '/') (he : ∀ x ∈ e, x ≠ '/' ∧ x ≠ '*') :
    stripAux (a ++ '/' :: '*' ::
        (b ++ '*' :: '/' :: (c ++ '/' :: '*' :: (d ++ '*' :: '/' :: e)))) =
      a ++ ' ' :: e := by
  have hR : b ++ '*' :: '/' :: (c ++ '/' :: '*' :: (d ++ '*' :: '/' :: e)) =
      (b ++ '*' :: '/' :: (c ++ '/' :: '*' :: d)) ++ '*' :: '/' :: e := by
    simp [List.append_assoc]
  have he' : '*' ∉ e := fun hm => (he _ hm).2 rfl
  rw [stripAux_append_clean a _ ha, hR,
    stripAux_block_some _ (b ++ '*' :: '/' :: (c ++ '/' :: '*' :: d)).length
      (lastClose_append_close _ e he'),
    drop_append_add _ ('*' :: '/' :: e) 2]
  simp only [List.drop_succ_cons, List.drop_zero]
  rw [stripAux_clean e (fun x hx => (he x hx).1)]

theorem comment_strip_greedy_block_witness :
    ((∀ x ∈ ['a', ' '], x ≠ '/') ∧
      (∀ x ∈ [' ', 'c'], x ≠ '/' ∧ x ≠ '*')) ∧
    stripAux (['a',' '] ++ '/' :: '*' ::
        (['x'] ++ '*' :: '/' :: ([' ','b',' '] ++ '/' :: '*' ::
          (['y'] ++ '*' :: '/' :: [' ','c'])))) =
      ['a',' '] ++ ' ' :: [' ','c'] :=
  ⟨⟨by decide, by decide⟩,
    comment_strip_greedy_block ['a',' '] ['x'] [' ','b',' '] ['y'] [' ','c']
      (by decide) (by decide)⟩

end Gears

